import Mathlib

/-!
Verification development for the ci-artifact-index sync scripts
(src/scripts/sync_music.py, src/scripts/sync_reddit.py,
src/scripts/sync_youtube.py).

Modelling conventions:
  * Python strings are modelled as `List Char`.
  * The HTML fetch-and-parse substrate (requests + BeautifulSoup) is
    modelled by oracle functions: a page URL is mapped to the hrefs of its
    anchor elements, the texts and links of its variant-table rows, or its
    anchors with class/rel attributes, as the corresponding selector in the
    scripts would extract them.
  * `urljoin(APKMIRROR_BASE, .)` is modelled by an abstract function
    `join : List Char -> List Char` supplied to each component.
  * A run of a script is modelled as an event trace (directory creation,
    page fetches, stream fetches, file writes) plus a final result.
-/

namespace APKSync

/-- Python str.lower applied characterwise to a string modelled as a list. -/
def pyLower (s : List Char) : List Char := s.map Char.toLower

/-- Helper for substring containment: sub is a leading segment of s. -/
def strStarts : List Char → List Char → Bool
  | [], _ => true
  | _ :: _, [] => false
  | a :: as, b :: bs => a == b && strStarts as bs

/-- Python substring containment, the expression sub in s. -/
def pyIn : List Char → List Char → Bool
  | sub, [] => sub.isEmpty
  | sub, c :: t => strStarts sub (c :: t) || pyIn sub t

/-- Python VERSION.replace with dot replaced by dash, characterwise. -/
def pyReplaceDot (s : List Char) : List Char :=
  s.map (fun c => if c = '.' then '-' else c)

/-- Inverse direction of the dot-to-dash replacement, used to show
injectivity of slug generation on dash-free version strings. -/
def unReplaceDot (s : List Char) : List Char :=
  s.map (fun c => if c = '-' then '.' else c)

/-- One row of the release page variant table, as the scripts see it:
the text rendered by row.get_text (before lowering) and the href values
of the anchor elements inside the row, in document order. -/
structure Row where
  text : List Char
  links : List (List Char)
deriving DecidableEq

/-- Per-tool static configuration: the constants at the top of each script
plus the script's variant-selection procedure and output file naming. -/
structure SyncConfig where
  category : List Char
  slugStem : List Char
  envVar : List Char
  missingDiag : List Char
  select : (List Char → List Char) → List Row → Option (List Char)
  fileName : List Char → List Char

/-- Slug construction from the scripts: the app stem, the version with
dots replaced by dashes, and the fixed release suffix. -/
def version_slug (cfg : SyncConfig) (v : List Char) : List Char :=
  cfg.slugStem ++ pyReplaceDot v ++ ("-release").toList

/-- Keyword constant used by the variant selectors. -/
def kwApk : List Char := ("apk").toList

/-- Keyword constant used by the variant selectors. -/
def kwNodpi : List Char := ("nodpi").toList

/-- Keyword constant used by the variant selectors. -/
def kwArm64 : List Char := ("arm64-v8a").toList

/-- Keyword constant used by the variant selectors. -/
def kwArm32 : List Char := ("armeabi-v7a").toList

/-- Keyword constant used by the variant selectors. -/
def kwBundle : List Char := ("bundle").toList

/-- Keyword constant used by the variant selectors. -/
def kwUniversal : List Char := ("universal").toList

/-- Keyword constant used by the variant selectors. -/
def kwDpi120640 : List Char := ("120-640dpi").toList

/-- Keyword constant used by the variant selectors. -/
def kwDpi480 : List Char := ("480dpi").toList

/-- The all-keywords condition of find_variant: every keyword is a
substring of the lowered row text. -/
def matchesAll (text : List Char) (keywords : List (List Char)) : Bool :=
  keywords.all (fun k => pyIn k text)

/-- find_variant from sync_music.py and sync_reddit.py: scan the variant
rows in order; on the first row whose lowered text contains every keyword,
return the joined href of its first anchor if it has one, otherwise keep
scanning; return none when no row qualifies. -/
def find_variant (join : List Char → List Char) (rows : List Row)
    (keywords : List (List Char)) : Option (List Char) :=
  match rows with
  | [] => none
  | r :: rest =>
    if matchesAll (pyLower r.text) keywords then
      match r.links.head? with
      | some a => some (join a)
      | none => find_variant join rest keywords
    else find_variant join rest keywords

/-- The or-chain of find_variant calls in sync_music.py and sync_reddit.py:
try each priority entry in order, returning the first non-none result. -/
def selectVariant (join : List Char → List Char) (rows : List Row) :
    List (List (List Char)) → Option (List Char)
  | [] => none
  | p :: ps =>
    match find_variant join rows p with
    | some u => some u
    | none => selectVariant join rows ps

/-- The inline variant-selection loop of sync_youtube.py: the first row
whose lowered text contains apk, nodpi and universal and does not contain
bundle, and which has an anchor, yields the joined href of that anchor. -/
def youtubeVariant (join : List Char → List Char) : List Row → Option (List Char)
  | [] => none
  | r :: rest =>
    if pyIn kwApk (pyLower r.text) && !(pyIn kwBundle (pyLower r.text))
        && pyIn kwNodpi (pyLower r.text) && pyIn kwUniversal (pyLower r.text) then
      match r.links.head? with
      | some a => some (join a)
      | none => youtubeVariant join rest
    else youtubeVariant join rest

/-- Variant priority list of sync_music.py in source order. -/
def musicPriorities : List (List (List Char)) :=
  [[kwApk, kwNodpi, kwArm64], [kwApk, kwNodpi, kwArm32]]

/-- Variant priority list of sync_reddit.py in source order. -/
def redditPriorities : List (List (List Char)) :=
  [[kwBundle, kwUniversal, kwDpi120640], [kwBundle, kwArm64, kwDpi120640],
   [kwBundle, kwUniversal, kwDpi480], [kwBundle, kwArm64, kwDpi480]]

/-- Configuration of sync_music.py. -/
def musicConfig : SyncConfig where
  category := ("youtube-music").toList
  slugStem := ("youtube-music-").toList
  envVar := ("MUSIC_VERSION").toList
  missingDiag := ("ERROR: MUSIC_VERSION missing").toList
  select := fun join rows => selectVariant join rows musicPriorities
  fileName := fun v => ("Music-").toList ++ v ++ (".apk").toList

/-- Configuration of sync_reddit.py. -/
def redditConfig : SyncConfig where
  category := ("reddit").toList
  slugStem := ("reddit-").toList
  envVar := ("REDDIT_VERSION").toList
  missingDiag := ("ERROR: REDDIT_VERSION missing").toList
  select := fun join rows => selectVariant join rows redditPriorities
  fileName := fun v => ("Reddit-").toList ++ v ++ (".apkm").toList

/-- Configuration of sync_youtube.py. -/
def youtubeConfig : SyncConfig where
  category := ("youtube").toList
  slugStem := ("youtube-").toList
  envVar := ("YOUTUBE_VERSION").toList
  missingDiag := ("ERROR: YOUTUBE_VERSION missing").toList
  select := youtubeVariant
  fileName := fun v => ("YouTube-").toList ++ v ++ (".apk").toList

theorem unReplace_replace (s : List Char) (h : '-' ∉ s) :
    unReplaceDot (pyReplaceDot s) = s := by
  induction s with
  | nil => rfl
  | cons c t ih =>
    simp only [List.mem_cons, not_or] at h
    have hcons : unReplaceDot (pyReplaceDot (c :: t))
        = (if (if c = '.' then '-' else c) = '-' then '.' else
            (if c = '.' then '-' else c)) :: unReplaceDot (pyReplaceDot t) := rfl
    rw [hcons, ih h.2]
    by_cases hc : c = '.'
    · simp [hc]
    · have hcd : ¬ c = '-' := fun e => h.1 e.symm
      rw [if_neg hc, if_neg hcd]

/-- C3: slug generation is deterministic (equal version strings give equal
slugs) and injective on the version strings actually used, namely those
not containing a dash, since the separator normalization only rewrites
dots to dashes and the fixed stem and suffix can be cancelled. -/
theorem slug_deterministic_injective (cfg : SyncConfig) (v1 v2 : List Char)
    (h1 : '-' ∉ v1) (h2 : '-' ∉ v2) :
    (v1 = v2 → version_slug cfg v1 = version_slug cfg v2) ∧
    (version_slug cfg v1 = version_slug cfg v2 → v1 = v2) := by
  constructor
  · intro h; rw [h]
  · intro h
    unfold version_slug at h
    have h3 : cfg.slugStem ++ pyReplaceDot v1 = cfg.slugStem ++ pyReplaceDot v2 :=
      List.append_cancel_right h
    have h4 : pyReplaceDot v1 = pyReplaceDot v2 :=
      List.append_cancel_left h3
    have h5 := congrArg unReplaceDot h4
    rwa [unReplace_replace v1 h1, unReplace_replace v2 h2] at h5

/-- Witness for C3 at concrete version strings. -/
theorem slug_deterministic_injective_w :
    ('-' ∉ ("7.16.1").toList) ∧
    version_slug musicConfig ("7.16.1").toList
      = version_slug musicConfig ("7.16.1").toList := by
  refine ⟨by decide, ?_⟩
  exact (slug_deterministic_injective musicConfig ("7.16.1").toList
    ("7.16.1").toList (by decide) (by decide)).1 rfl

theorem find_variant_isSome_of_match (join : List Char → List Char)
    (rows : List Row) (ks : List (List Char)) (r : Row) (hr : r ∈ rows)
    (hm : matchesAll (pyLower r.text) ks = true) (hl : r.links ≠ []) :
    (find_variant join rows ks).isSome = true := by
  induction rows with
  | nil => cases hr
  | cons x t ih =>
    rcases List.mem_cons.mp hr with h | h
    · subst h
      simp only [find_variant, hm, if_true]
      cases hlk : r.links with
      | nil => exact absurd hlk hl
      | cons a as => simp [hlk]
    · by_cases hx : matchesAll (pyLower x.text) ks = true
      · simp only [find_variant, hx, if_true]
        cases hlk : x.links.head? with
        | some a => simp [hlk]
        | none => simp only [hlk]; exact ih h
      · simp only [find_variant]
        rw [if_neg hx]
        exact ih h

theorem find_variant_none_of_linkless (join : List Char → List Char)
    (rows : List Row) (ks : List (List Char))
    (h : ∀ row ∈ rows, matchesAll (pyLower row.text) ks = true → row.links = []) :
    find_variant join rows ks = none := by
  induction rows with
  | nil => rfl
  | cons x t ih =>
    have ht : ∀ row ∈ t, matchesAll (pyLower row.text) ks = true → row.links = [] :=
      fun row hrow => h row (List.mem_cons_of_mem _ hrow)
    by_cases hm : matchesAll (pyLower x.text) ks = true
    · have hx := h x (List.mem_cons_self _ _) hm
      simp [find_variant, hm, hx, ih ht]
    · simp only [find_variant]
      rw [if_neg hm]
      exact ih ht

theorem selectVariant_none_of_linkless (join : List Char → List Char)
    (rows : List Row) (ps : List (List (List Char)))
    (h : ∀ p ∈ ps, ∀ row ∈ rows, matchesAll (pyLower row.text) p = true → row.links = []) :
    selectVariant join rows ps = none := by
  induction ps with
  | nil => rfl
  | cons p pt ih =>
    have hp := find_variant_none_of_linkless join rows p (h p (List.mem_cons_self _ _))
    simp [selectVariant, hp, ih (fun q hq => h q (List.mem_cons_of_mem _ hq))]

/-- C1: variant selection respects priority strictly. If some row matches
the first priority entry and has a hyperlink, the first entry yields a
result and the or-chain returns exactly that result whatever the remaining
entries are (lower-priority entries are never consulted); if the first
entry yields nothing, the chain continues with the next entry, and when a
row matches the second entry with a hyperlink the second entry's result is
returned. -/
theorem variant_priority_strict (join : List Char → List Char) (rows : List Row)
    (p1 p2 : List (List Char)) (ps : List (List (List Char))) :
    (∀ r1 ∈ rows, matchesAll (pyLower r1.text) p1 = true → r1.links ≠ [] →
       (find_variant join rows p1).isSome = true ∧
       ∀ qs, selectVariant join rows (p1 :: qs) = find_variant join rows p1) ∧
    (find_variant join rows p1 = none →
       selectVariant join rows (p1 :: p2 :: ps) = selectVariant join rows (p2 :: ps) ∧
       (∀ r2 ∈ rows, matchesAll (pyLower r2.text) p2 = true → r2.links ≠ [] →
          selectVariant join rows (p1 :: p2 :: ps) = find_variant join rows p2)) := by
  constructor
  · intro r1 hr hm hl
    have hs := find_variant_isSome_of_match join rows p1 r1 hr hm hl
    refine ⟨hs, fun qs => ?_⟩
    rcases Option.isSome_iff_exists.mp hs with ⟨u, hu⟩
    simp [selectVariant, hu]
  · intro hnone
    constructor
    · simp [selectVariant, hnone]
    · intro r2 hr hm hl
      have hs := find_variant_isSome_of_match join rows p2 r2 hr hm hl
      rcases Option.isSome_iff_exists.mp hs with ⟨u, hu⟩
      simp [selectVariant, hnone, hu]

/-- Concrete sample row matching the first music priority entry. -/
def demoRow1 : Row := ⟨(" apk nodpi arm64-v8a stable ").toList, [("link1").toList]⟩

/-- Concrete sample row matching the second music priority entry only. -/
def demoRow2 : Row := ⟨(" apk nodpi armeabi-v7a stable ").toList, [("link2").toList]⟩

/-- Witness for C1 on concrete rows: with a priority-1 row present the
chain returns the priority-1 result; with only a priority-2 row present
the chain falls through to priority 2. -/
theorem variant_priority_strict_w :
    matchesAll (pyLower demoRow1.text) [kwApk, kwNodpi, kwArm64] = true ∧
    selectVariant id [demoRow1, demoRow2] musicPriorities
      = find_variant id [demoRow1, demoRow2] [kwApk, kwNodpi, kwArm64] ∧
    selectVariant id [demoRow2] musicPriorities
      = find_variant id [demoRow2] [kwApk, kwNodpi, kwArm32] := by
  refine ⟨by decide, ?_, ?_⟩
  · exact ((variant_priority_strict id [demoRow1, demoRow2]
      [kwApk, kwNodpi, kwArm64] [kwApk, kwNodpi, kwArm32] []).1 demoRow1
      (List.mem_cons_self _ _) (by decide) (by decide)).2 [[kwApk, kwNodpi, kwArm32]]
  · exact ((variant_priority_strict id [demoRow2]
      [kwApk, kwNodpi, kwArm64] [kwApk, kwNodpi, kwArm32] []).2 (by decide)).2
      demoRow2 (List.mem_cons_self _ _) (by decide) (by decide)

/-- Concrete sample row whose text contains the music priority-1 tags and
also the excluded bundle tag. -/
def demoBundleRow : Row := ⟨(" apk nodpi arm64-v8a bundle ").toList, [("xlink").toList]⟩

/-- Concrete sample row whose text contains apk, nodpi, universal and the
excluded bundle tag. -/
def demoYtBundleRow : Row := ⟨(" apk nodpi universal bundle ").toList, [("ylink").toList]⟩

/-- C2 counterexample: the shared find_variant of sync_music.py and
sync_reddit.py has no negative-constraint support, so a row containing the
excluded bundle tag together with all positive tags of a priority entry is
still selected rather than rejected; only the hardcoded loop of
sync_youtube.py rejects it. The exclusion polarity is therefore fixed per
tool, not configurable per priority entry. -/
theorem variant_exclusion_cex :
    find_variant id [demoBundleRow] [kwApk, kwNodpi, kwArm64]
      = some (("xlink").toList) ∧
    youtubeVariant id [demoYtBundleRow] = none := by decide

/-- C2 (amended): the hardcoded exclusion in sync_youtube.py rejects any
row whose text contains the bundle tag even when all positive tags match,
while find_variant in sync_music.py and sync_reddit.py applies every
keyword as a positive inclusion test only, selecting a matching row with a
hyperlink regardless of any excluded tag also present: the exclusion test
is hardcoded to one tool, not configurable per priority-list entry. -/
theorem variant_exclusion_amended (join : List Char → List Char) (r : Row)
    (rest : List Row) (ks : List (List Char)) (a : List Char) :
    (pyIn kwBundle (pyLower r.text) = true →
       youtubeVariant join (r :: rest) = youtubeVariant join rest) ∧
    (matchesAll (pyLower r.text) ks = true → r.links.head? = some a →
       find_variant join (r :: rest) ks = some (join a)) := by
  constructor
  · intro hb
    simp [youtubeVariant, hb]
  · intro hm ha
    simp [find_variant, hm, ha]

/-- Witness for the amended C2 on concrete rows. -/
theorem variant_exclusion_amended_w :
    pyIn kwBundle (pyLower demoYtBundleRow.text) = true ∧
    youtubeVariant id [demoYtBundleRow] = youtubeVariant id [] ∧
    find_variant id [demoBundleRow] [kwApk, kwNodpi, kwArm64]
      = some (id (("xlink").toList)) := by
  refine ⟨by decide, ?_, ?_⟩
  · exact (variant_exclusion_amended id demoYtBundleRow [] [] []).1 (by decide)
  · exact (variant_exclusion_amended id demoBundleRow []
      [kwApk, kwNodpi, kwArm64] (("xlink").toList)).2 (by decide) (by decide)

/-- C9: a matching variant row without a hyperlink is skipped and scanning
continues with the remaining rows; when every row matching an entry lacks
a hyperlink that entry yields nothing, and when this holds for every entry
of the priority list the whole selection yields none, which is the
no-suitable-variant terminal failure path of the scripts. -/
theorem linkless_row_skipped (join : List Char → List Char) (r : Row)
    (rest rows : List Row) (ks : List (List Char))
    (ps : List (List (List Char))) :
    (r.links = [] → find_variant join (r :: rest) ks = find_variant join rest ks) ∧
    ((∀ row ∈ rows, matchesAll (pyLower row.text) ks = true → row.links = []) →
       find_variant join rows ks = none) ∧
    ((∀ p ∈ ps, ∀ row ∈ rows, matchesAll (pyLower row.text) p = true → row.links = []) →
       selectVariant join rows ps = none) := by
  refine ⟨?_, ?_, ?_⟩
  · intro hl
    by_cases hm : matchesAll (pyLower r.text) ks = true
    · simp [find_variant, hm, hl]
    · simp only [find_variant]
      rw [if_neg hm]
  · exact find_variant_none_of_linkless join rows ks
  · exact selectVariant_none_of_linkless join rows ps

/-- Concrete sample row matching the first music priority entry but
carrying no hyperlink. -/
def demoLinklessRow : Row := ⟨(" apk nodpi arm64-v8a stable ").toList, []⟩

/-- Witness for C9 on a concrete link-less matching row. -/
theorem linkless_row_skipped_w :
    demoLinklessRow.links = [] ∧
    find_variant id [demoLinklessRow] [kwApk, kwNodpi, kwArm64]
      = find_variant id [] [kwApk, kwNodpi, kwArm64] ∧
    selectVariant id [demoLinklessRow] musicPriorities = none := by
  refine ⟨rfl, ?_, ?_⟩
  · exact (linkless_row_skipped id demoLinklessRow [] []
      [kwApk, kwNodpi, kwArm64] []).1 rfl
  · exact (linkless_row_skipped id demoLinklessRow [] [demoLinklessRow]
      [] musicPriorities).2.2 (by decide)

/-- Inner link scan of the release-locator loop: the first href on the
page that contains the version slug as a substring. -/
def scanPage (slug : List Char) (links : List (List Char)) : Option (List Char) :=
  links.find? (fun href => pyIn slug href)

/-- The MAX_PAGES constant of the scripts. -/
def MAX_PAGES : Nat := 25

/-- The release-locator pagination loop: scan pages from the start page
while fuel remains, returning the list of page numbers fetched and the
first matching href found, stopping at the first page with a match. -/
def locateLoop (fetch : Nat → List (List Char)) (slug : List Char) :
    Nat → Nat → List Nat × Option (List Char)
  | _, 0 => ([], none)
  | page, Nat.succ fuel =>
    match scanPage slug (fetch page) with
    | some href => ([page], some href)
    | none =>
      let r := locateLoop fetch slug (page + 1) fuel
      (page :: r.1, r.2)

/-- The full locator of the scripts: pages 1 through MAX_PAGES. -/
def locateRelease (fetch : Nat → List (List Char)) (slug : List Char) :
    List Nat × Option (List Char) :=
  locateLoop fetch slug 1 MAX_PAGES

theorem locateLoop_trace_le (fetch : Nat → List (List Char)) (slug : List Char)
    (k : Nat) (hs : (scanPage slug (fetch k)).isSome = true) :
    ∀ fuel start, start ≤ k → ∀ p ∈ (locateLoop fetch slug start fuel).1, p ≤ k := by
  intro fuel
  induction fuel with
  | zero => intro start _ p hp; simp [locateLoop] at hp
  | succ n ih =>
    intro start hstart p hp
    cases hm : scanPage slug (fetch start) with
    | some u =>
      simp only [locateLoop, hm] at hp
      simp only [List.mem_singleton] at hp
      subst hp; exact hstart
    | none =>
      have hne : start ≠ k := by
        intro e; rw [← e, hm] at hs; simp at hs
      have hlt : start + 1 ≤ k := Nat.succ_le_of_lt (Nat.lt_of_le_of_ne hstart hne)
      simp only [locateLoop, hm] at hp
      rcases List.mem_cons.mp hp with h | h
      · subst h; exact hstart
      · exact ih (start + 1) hlt p h

theorem locateLoop_trace_bounds (fetch : Nat → List (List Char)) (slug : List Char) :
    ∀ fuel start, ∀ p ∈ (locateLoop fetch slug start fuel).1,
      start ≤ p ∧ p < start + fuel := by
  intro fuel
  induction fuel with
  | zero => intro start p hp; simp [locateLoop] at hp
  | succ n ih =>
    intro start p hp
    cases hm : scanPage slug (fetch start) with
    | some u =>
      simp only [locateLoop, hm] at hp
      simp only [List.mem_singleton] at hp
      subst hp; omega
    | none =>
      simp only [locateLoop, hm] at hp
      rcases List.mem_cons.mp hp with h | h
      · subst h; omega
      · have := ih (start + 1) p h
        omega

theorem locateLoop_result (fetch : Nat → List (List Char)) (slug : List Char)
    (k : Nat) :
    ∀ fuel start, start ≤ k → k < start + fuel →
    (∀ j, start ≤ j → j < k → scanPage slug (fetch j) = none) →
    (scanPage slug (fetch k)).isSome = true →
    (locateLoop fetch slug start fuel).2 = scanPage slug (fetch k) := by
  intro fuel
  induction fuel with
  | zero => intro start h1 h2 _ _; omega
  | succ n ih =>
    intro start h1 h2 hbefore hs
    by_cases he : start = k
    · subst he
      rcases Option.isSome_iff_exists.mp hs with ⟨u, hu⟩
      simp [locateLoop, hu]
    · have hnone : scanPage slug (fetch start) = none :=
        hbefore start (Nat.le_refl _) (Nat.lt_of_le_of_ne h1 he)
      simp only [locateLoop, hnone]
      exact ih (start + 1) (by omega) (by omega)
        (fun j hj1 hj2 => hbefore j (by omega) hj2) hs

/-- C4: the pagination scan is monotonic. If page k (within the cap) has a
matching link, every page the locator fetches has number at most k; every
fetched page number lies between 1 and MAX_PAGES; if no page before k has
a match, the result is exactly the scan of page k, so the lowest-numbered
matching page wins; and within one page the first link in document order
containing the slug wins. -/
theorem pagination_monotonic (fetch : Nat → List (List Char)) (slug : List Char)
    (k : Nat) (h1 : 1 ≤ k) (h2 : k ≤ MAX_PAGES) :
    ((scanPage slug (fetch k)).isSome = true →
       ∀ p ∈ (locateRelease fetch slug).1, p ≤ k) ∧
    (∀ p ∈ (locateRelease fetch slug).1, 1 ≤ p ∧ p ≤ MAX_PAGES) ∧
    ((∀ j, 1 ≤ j → j < k → scanPage slug (fetch j) = none) →
       (scanPage slug (fetch k)).isSome = true →
       (locateRelease fetch slug).2 = scanPage slug (fetch k)) ∧
    (∀ h t, (pyIn slug h = true → scanPage slug (h :: t) = some h) ∧
       (pyIn slug h = false → scanPage slug (h :: t) = scanPage slug t)) := by
  refine ⟨?_, ?_, ?_, ?_⟩
  · intro hs p hp
    exact locateLoop_trace_le fetch slug k hs MAX_PAGES 1 h1 p hp
  · intro p hp
    have := locateLoop_trace_bounds fetch slug MAX_PAGES 1 p hp
    unfold MAX_PAGES at *
    omega
  · intro hbefore hs
    refine locateLoop_result fetch slug k MAX_PAGES 1 h1 ?_ hbefore hs
    unfold MAX_PAGES at *
    omega
  · intro h t
    constructor
    · intro hpos; simp [scanPage, List.find?, hpos]
    · intro hneg; simp [scanPage, List.find?, hneg]

/-- Concrete slug used in the C4 witness. -/
def demoSlug : List Char := ("app-1-0-release").toList

/-- Concrete page oracle used in the C4 witness: only page 2 contains a
link whose href contains the slug. -/
def demoFetch : Nat → List (List Char) :=
  fun p => if p = 2 then [("/apk/app-1-0-release/").toList] else []

/-- Witness for C4: on the concrete oracle the locator's result is the
scan of page 2, the lowest-numbered page with a match. -/
theorem pagination_monotonic_w :
    (1 ≤ 2 ∧ 2 ≤ MAX_PAGES) ∧
    (locateRelease demoFetch demoSlug).2 = scanPage demoSlug (demoFetch 2) := by
  refine ⟨by decide, ?_⟩
  refine (pagination_monotonic demoFetch demoSlug 2 (by decide) (by decide)).2.2.1
    ?_ (by decide)
  intro j hj1 hj2
  have hj : j = 1 := by omega
  subst hj
  decide

/-- Error taxonomy of a run, as in the scripts' terminal failure paths.
chainBroken carries the hop number at which the redirect chain broke. -/
inductive RunErr
  | configMissing
  | notFound
  | variantUnavailable
  | chainBroken : Nat → RunErr
  | transport
deriving DecidableEq

/-- One anchor element of a fetched page, with its href, its class tokens
and its rel attribute value, as the scripts' selectors read them. -/
structure Anchor where
  href : List Char
  classes : List (List Char)
  rel : List Char
deriving DecidableEq

/-- Class token selected by a.downloadButton. -/
def dlButtonClass : List Char := ("downloadButton").toList

/-- Attribute value selected by the rel nofollow anchor query. -/
def relNofollow : List Char := ("nofollow").toList

/-- select_one with the a.downloadButton query: the first anchor carrying
the downloadButton class. -/
def downloadButtonOf (anchors : List Anchor) : Option Anchor :=
  anchors.find? (fun a => a.classes.contains dlButtonClass)

/-- select_one with the rel nofollow query: the first anchor whose rel
attribute is nofollow. -/
def nofollowOf (anchors : List Anchor) : Option Anchor :=
  anchors.find? (fun a => a.rel == relNofollow)

/-- The two-hop redirect resolver of the scripts: fetch the variant page
and find the download button; then fetch the confirmation page and find
the rel nofollow final link. Returns the fetched URLs and either the final
joined href or the chain-broken error of the failing hop. -/
def resolveChain (join : List Char → List Char)
    (anchorsAt : List Char → List Anchor) (variantUrl : List Char) :
    List (List Char) × Except RunErr (List Char) :=
  match downloadButtonOf (anchorsAt variantUrl) with
  | none => ([variantUrl], Except.error (RunErr.chainBroken 1))
  | some btn =>
    match nofollowOf (anchorsAt (join btn.href)) with
    | none => ([variantUrl, join btn.href], Except.error (RunErr.chainBroken 2))
    | some fin => ([variantUrl, join btn.href], Except.ok (join fin.href))

/-- C5: redirect resolution is exactly two hops. A missing download button
at hop 1 terminates with the chain-broken error after the single hop-1
fetch; a missing rel nofollow link at hop 2 terminates with the
chain-broken error after exactly the two fetches; when both elements are
present the resolver returns the joined href of the marked final link
after exactly two fetches, never any other link. -/
theorem redirect_two_hops (join : List Char → List Char)
    (anchorsAt : List Char → List Anchor) (vurl : List Char) :
    (downloadButtonOf (anchorsAt vurl) = none →
       resolveChain join anchorsAt vurl
         = ([vurl], Except.error (RunErr.chainBroken 1))) ∧
    (∀ btn, downloadButtonOf (anchorsAt vurl) = some btn →
       nofollowOf (anchorsAt (join btn.href)) = none →
       resolveChain join anchorsAt vurl
         = ([vurl, join btn.href], Except.error (RunErr.chainBroken 2))) ∧
    (∀ btn fin, downloadButtonOf (anchorsAt vurl) = some btn →
       nofollowOf (anchorsAt (join btn.href)) = some fin →
       resolveChain join anchorsAt vurl
         = ([vurl, join btn.href], Except.ok (join fin.href)) ∧
       (resolveChain join anchorsAt vurl).1.length = 2) := by
  refine ⟨?_, ?_, ?_⟩
  · intro h; simp [resolveChain, h]
  · intro btn h1 h2; simp [resolveChain, h1, h2]
  · intro btn fin h1 h2
    constructor <;> simp [resolveChain, h1, h2]

/-- Concrete download-button anchor for the C5 witness. -/
def demoButtonAnchor : Anchor := ⟨("bhref").toList, [dlButtonClass], []⟩

/-- Concrete rel nofollow anchor for the C5 witness. -/
def demoFinalAnchor : Anchor := ⟨("fhref").toList, [], relNofollow⟩

/-- Concrete page oracle for the C5 witness: every page holds the button
anchor followed by the final anchor. -/
def demoAnchorsAt : List Char → List Anchor :=
  fun _ => [demoButtonAnchor, demoFinalAnchor]

/-- Witness for C5: on concrete pages the resolver succeeds in exactly two
hops with the marked final link, and with no anchors at all it fails with
the hop-1 chain-broken error. -/
theorem redirect_two_hops_w :
    downloadButtonOf (demoAnchorsAt (("v").toList)) = some demoButtonAnchor ∧
    resolveChain id demoAnchorsAt (("v").toList)
      = ([("v").toList, id demoButtonAnchor.href],
         Except.ok (id demoFinalAnchor.href)) ∧
    resolveChain id (fun _ => []) (("v").toList)
      = ([("v").toList], Except.error (RunErr.chainBroken 1)) := by
  refine ⟨by decide, ?_, ?_⟩
  · exact ((redirect_two_hops id demoAnchorsAt (("v").toList)).2.2
      demoButtonAnchor demoFinalAnchor (by decide) (by decide)).1
  · exact (redirect_two_hops id (fun _ => []) (("v").toList)).1 (by decide)

/-- Observable side effects of a run: creating the tmp directory, fetching
a page, opening the streaming download, writing a local file. -/
inductive Ev
  | mkdirTmp
  | fetchPage : List Char → Ev
  | fetchStream : List Char → Ev
  | writeFile : List Char → Ev
deriving DecidableEq

/-- The external world a run interacts with: the optional environment
version variable and, per URL, the hrefs of the anchors on the page, the
variant-table rows, the attributed anchors, and whether the streaming
download responds with a success status. -/
structure World where
  envVersion : Option (List Char)
  pageLinks : List Char → List (List Char)
  pageRows : List Char → List Row
  pageAnchors : List Char → List Anchor
  downloadOk : List Char → Bool

/-- The APKMIRROR_BASE constant of the scripts. -/
def APKMIRROR_BASE : List Char := ("https://www.apkmirror.com").toList

/-- URL of the n-th uploads listing page, as built in the locator loop. -/
def pageUrl (cfg : SyncConfig) (p : Nat) : List Char :=
  if p = 1 then
    APKMIRROR_BASE ++ ("/uploads/?appcategory=").toList ++ cfg.category
  else
    APKMIRROR_BASE ++ ("/uploads/page/").toList ++ (Nat.repr p).toList
      ++ ("/?appcategory=").toList ++ cfg.category

/-- The TMP_DIR constant of the scripts. -/
def TMP_DIR : List Char := ("tmp").toList

/-- Local output path TMP_DIR slash file name. -/
def tmpPath (name : List Char) : List Char := TMP_DIR ++ ("/").toList ++ name

/-- Process exit status determined by the final result. -/
def exitOf : Except RunErr (List Char) → Nat
  | Except.ok _ => 0
  | Except.error _ => 1

/-- File paths written during a run, in order. -/
def writes : List Ev → List (List Char)
  | [] => []
  | Ev.writeFile p :: t => p :: writes t
  | _ :: t => writes t

/-- Network fetch events of a run, in order. -/
def netFetches : List Ev → List Ev
  | [] => []
  | Ev.fetchPage u :: t => Ev.fetchPage u :: netFetches t
  | Ev.fetchStream u :: t => Ev.fetchStream u :: netFetches t
  | _ :: t => netFetches t

/-- Final download stage of the scripts: issue the streaming request; on a
success status write the artifact file, otherwise the transport failure is
terminal and nothing is written. -/
def downloadStage (cfg : SyncConfig) (w : World) (v apkUrl : List Char) :
    List Ev × Except RunErr (List Char) :=
  if w.downloadOk apkUrl then
    ([Ev.fetchStream apkUrl, Ev.writeFile (tmpPath (cfg.fileName v))],
     Except.ok (tmpPath (cfg.fileName v)))
  else
    ([Ev.fetchStream apkUrl], Except.error RunErr.transport)

/-- Run continuation once a variant URL is selected: walk the redirect
chain, then download. -/
def afterVariant (cfg : SyncConfig) (join : List Char → List Char) (w : World)
    (v variantUrl : List Char) : List Ev × Except RunErr (List Char) :=
  match resolveChain join w.pageAnchors variantUrl with
  | (urls, Except.error e) => (urls.map Ev.fetchPage, Except.error e)
  | (urls, Except.ok apkUrl) =>
    (urls.map Ev.fetchPage ++ (downloadStage cfg w v apkUrl).1,
     (downloadStage cfg w v apkUrl).2)

/-- Run continuation once the release page href is located: fetch the
release page, select a variant, then continue; selection failure is the
no-suitable-variant terminal failure. -/
def afterRelease (cfg : SyncConfig) (join : List Char → List Char) (w : World)
    (v href : List Char) : List Ev × Except RunErr (List Char) :=
  match cfg.select join (w.pageRows (join href)) with
  | none => ([], Except.error RunErr.variantUnavailable)
  | some variantUrl => afterVariant cfg join w v variantUrl

/-- Run continuation once the version is known: locate the release page
across the uploads pagination, then continue; locator failure is the
version-not-found terminal failure. -/
def afterVersion (cfg : SyncConfig) (join : List Char → List Char) (w : World)
    (v : List Char) : List Ev × Except RunErr (List Char) :=
  match locateRelease (fun p => w.pageLinks (pageUrl cfg p)) (version_slug cfg v) with
  | (pages, none) =>
    (pages.map (fun p => Ev.fetchPage (pageUrl cfg p)), Except.error RunErr.notFound)
  | (pages, some href) =>
    (pages.map (fun p => Ev.fetchPage (pageUrl cfg p))
       ++ (Ev.fetchPage (join href) :: (afterRelease cfg join w v href).1),
     (afterRelease cfg join w v href).2)

/-- A full run of a script: create the tmp directory, validate the
required version input, then locate, select, resolve and download.
Returns the event trace and the final result. -/
def runSync (cfg : SyncConfig) (join : List Char → List Char) (w : World) :
    List Ev × Except RunErr (List Char) :=
  match w.envVersion with
  | none => ([Ev.mkdirTmp], Except.error RunErr.configMissing)
  | some v =>
    (Ev.mkdirTmp :: (afterVersion cfg join w v).1, (afterVersion cfg join w v).2)

theorem writes_append (a b : List Ev) : writes (a ++ b) = writes a ++ writes b := by
  induction a with
  | nil => rfl
  | cons e t ih => cases e <;> simp [writes, ih]

theorem writes_map_fetch {α : Type} (f : α → List Char) (l : List α) :
    writes (l.map (fun x => Ev.fetchPage (f x))) = [] := by
  induction l with
  | nil => rfl
  | cons x t ih => simp [writes, ih]

theorem writes_map_fetchPage (l : List (List Char)) :
    writes (l.map Ev.fetchPage) = [] := by
  induction l with
  | nil => rfl
  | cons x t ih => simp [writes, ih]

/-- Dichotomy satisfied by every stage suffix of a run: either it succeeds
with the deterministic artifact path having written exactly that file, or
it fails having written nothing. -/
def goodOutcome (cfg : SyncConfig) (v : List Char)
    (r : List Ev × Except RunErr (List Char)) : Prop :=
  (r.2 = Except.ok (tmpPath (cfg.fileName v)) ∧
     writes r.1 = [tmpPath (cfg.fileName v)]) ∨
  ((∃ e, r.2 = Except.error e) ∧ writes r.1 = [])

theorem downloadStage_good (cfg : SyncConfig) (w : World) (v apkUrl : List Char) :
    goodOutcome cfg v (downloadStage cfg w v apkUrl) := by
  unfold goodOutcome downloadStage
  by_cases h : w.downloadOk apkUrl
  · left
    rw [if_pos h]
    exact ⟨rfl, rfl⟩
  · right
    rw [if_neg h]
    exact ⟨⟨RunErr.transport, rfl⟩, rfl⟩

theorem afterVariant_good (cfg : SyncConfig) (join : List Char → List Char)
    (w : World) (v variantUrl : List Char) :
    goodOutcome cfg v (afterVariant cfg join w v variantUrl) := by
  unfold goodOutcome afterVariant
  rcases hr : resolveChain join w.pageAnchors variantUrl with ⟨urls, res⟩
  cases res with
  | error e =>
    right
    exact ⟨⟨e, rfl⟩, writes_map_fetchPage urls⟩
  | ok apkUrl =>
    rcases downloadStage_good cfg w v apkUrl with ⟨hok, hw⟩ | ⟨⟨e, herr⟩, hw⟩
    · left
      refine ⟨hok, ?_⟩
      rw [writes_append, writes_map_fetchPage, hw]
      rfl
    · right
      refine ⟨⟨e, herr⟩, ?_⟩
      rw [writes_append, writes_map_fetchPage, hw]
      rfl

theorem afterRelease_good (cfg : SyncConfig) (join : List Char → List Char)
    (w : World) (v href : List Char) :
    goodOutcome cfg v (afterRelease cfg join w v href) := by
  unfold afterRelease
  cases hs : cfg.select join (w.pageRows (join href)) with
  | none => right; exact ⟨⟨RunErr.variantUnavailable, rfl⟩, rfl⟩
  | some variantUrl => exact afterVariant_good cfg join w v variantUrl

theorem afterVersion_good (cfg : SyncConfig) (join : List Char → List Char)
    (w : World) (v : List Char) :
    goodOutcome cfg v (afterVersion cfg join w v) := by
  unfold goodOutcome afterVersion
  rcases hl : locateRelease (fun p => w.pageLinks (pageUrl cfg p))
      (version_slug cfg v) with ⟨pages, res⟩
  cases res with
  | none =>
    right
    exact ⟨⟨RunErr.notFound, rfl⟩, writes_map_fetch (fun p => pageUrl cfg p) pages⟩
  | some href =>
    rcases afterRelease_good cfg join w v href with ⟨hok, hw⟩ | ⟨⟨e, herr⟩, hw⟩
    · left
      refine ⟨hok, ?_⟩
      rw [writes_append, writes_map_fetch]
      simp [writes, hw]
    · right
      refine ⟨⟨e, herr⟩, ?_⟩
      rw [writes_append, writes_map_fetch]
      simp [writes, hw]

theorem runSync_good (cfg : SyncConfig) (join : List Char → List Char) (w : World) :
    (∃ v, w.envVersion = some v ∧
       (runSync cfg join w).2 = Except.ok (tmpPath (cfg.fileName v)) ∧
       writes (runSync cfg join w).1 = [tmpPath (cfg.fileName v)]) ∨
    ((∃ e, (runSync cfg join w).2 = Except.error e) ∧
       writes (runSync cfg join w).1 = []) := by
  cases hv : w.envVersion with
  | none =>
    right
    refine ⟨⟨RunErr.configMissing, ?_⟩, ?_⟩ <;> simp [runSync, hv, writes]
  | some v =>
    rcases afterVersion_good cfg join w v with ⟨hok, hw⟩ | ⟨⟨e, herr⟩, hw⟩
    · left
      refine ⟨v, rfl, ?_, ?_⟩
      · simp only [runSync, hv]
        exact hok
      · simp only [runSync, hv, writes]
        exact hw
    · right
      refine ⟨⟨e, ?_⟩, ?_⟩
      · simp only [runSync, hv]
        exact herr
      · simp only [runSync, hv, writes]
        exact hw

/-- C6: no partial or degraded success. If a run ends in success its exit
status is zero, the environment version was present, and exactly the one
artifact file at the deterministic tmp path was written; if a run ends in
any terminal failure its exit status is nonzero and no file was written. -/
theorem no_partial_success (cfg : SyncConfig) (join : List Char → List Char)
    (w : World) :
    (∀ p, (runSync cfg join w).2 = Except.ok p →
       exitOf (runSync cfg join w).2 = 0 ∧
       (∃ v, w.envVersion = some v ∧ p = tmpPath (cfg.fileName v)) ∧
       writes (runSync cfg join w).1 = [p]) ∧
    (∀ e, (runSync cfg join w).2 = Except.error e →
       exitOf (runSync cfg join w).2 = 1 ∧
       writes (runSync cfg join w).1 = []) := by
  constructor
  · intro p hp
    rcases runSync_good cfg join w with ⟨v, hv, hok, hw⟩ | ⟨⟨e, herr⟩, hw⟩
    · rw [hp] at hok ⊢
      have hpe : p = tmpPath (cfg.fileName v) := by
        simpa using hok
      exact ⟨rfl, ⟨v, hv, hpe⟩, by rw [hw, hpe]⟩
    · rw [herr] at hp
      cases hp
  · intro e he
    rcases runSync_good cfg join w with ⟨v, hv, hok, hw⟩ | ⟨⟨e2, herr⟩, hw⟩
    · rw [hok] at he
      cases he
    · rw [he]
      exact ⟨rfl, hw⟩

/-- Concrete version string for the run witnesses. -/
def demoVersion : List Char := ("1.0").toList

/-- Concrete release href for the run witnesses: a link whose href
contains the music slug. -/
def demoReleaseHref : List Char := version_slug musicConfig demoVersion

/-- Concrete world in which the full music run succeeds on page 1. -/
def demoWorld : World :=
  ⟨some demoVersion, fun _ => [demoReleaseHref], fun _ => [demoRow1],
   demoAnchorsAt, fun _ => true⟩

/-- Witness for C6 on the concrete success world. -/
theorem no_partial_success_w :
    (runSync musicConfig id demoWorld).2
      = Except.ok (tmpPath (musicConfig.fileName demoVersion)) ∧
    writes (runSync musicConfig id demoWorld).1
      = [tmpPath (musicConfig.fileName demoVersion)] := by
  have hok : (runSync musicConfig id demoWorld).2
      = Except.ok (tmpPath (musicConfig.fileName demoVersion)) := rfl
  have h := (no_partial_success musicConfig id demoWorld).1 _ hok
  exact ⟨hok, h.2.2⟩

/-- C7: on success exactly one file is written, at the deterministic path
tmp slash name, where the name is the fixed per-application stem followed
by the version and the format-dependent extension: apk for the single-file
packages of the music and youtube tools, apkm for the reddit bundle. -/
theorem artifact_single_path (cfg : SyncConfig) (join : List Char → List Char)
    (w : World) (p : List Char) :
    ((runSync cfg join w).2 = Except.ok p →
       (∃ v, w.envVersion = some v ∧ p = tmpPath (cfg.fileName v)) ∧
       writes (runSync cfg join w).1 = [p]) ∧
    (∀ v, musicConfig.fileName v = ("Music-").toList ++ v ++ (".apk").toList) ∧
    (∀ v, redditConfig.fileName v = ("Reddit-").toList ++ v ++ (".apkm").toList) ∧
    (∀ v, youtubeConfig.fileName v = ("YouTube-").toList ++ v ++ (".apk").toList) ∧
    (∀ n, tmpPath n = ("tmp/").toList ++ n) := by
  refine ⟨?_, fun v => rfl, fun v => rfl, fun v => rfl, fun n => rfl⟩
  intro hp
  rcases runSync_good cfg join w with ⟨v, hv, hok, hw⟩ | ⟨⟨e, herr⟩, hw⟩
  · rw [hp] at hok
    have hpe : p = tmpPath (cfg.fileName v) := by
      simpa using hok
    exact ⟨⟨v, hv, hpe⟩, by rw [hw, hpe]⟩
  · rw [herr] at hp
    cases hp

/-- Witness for C7 on the concrete success world. -/
theorem artifact_single_path_w :
    (runSync musicConfig id demoWorld).2
      = Except.ok (("tmp/Music-1.0.apk").toList) ∧
    writes (runSync musicConfig id demoWorld).1
      = [("tmp/Music-1.0.apk").toList] := by
  have hok : (runSync musicConfig id demoWorld).2
      = Except.ok (("tmp/Music-1.0.apk").toList) := rfl
  have h := (artifact_single_path musicConfig id demoWorld
    (("tmp/Music-1.0.apk").toList)).1 hok
  exact ⟨hok, h.2⟩

/-- C8: with the required version input absent the run terminates at
startup with the configuration failure, before any network fetch, with a
nonzero exit status and nothing written; the three tools' diagnostics each
name their missing environment variable and are pairwise distinct. -/
theorem missing_version_startup (cfg : SyncConfig) (join : List Char → List Char)
    (w : World) (h : w.envVersion = none) :
    runSync cfg join w = ([Ev.mkdirTmp], Except.error RunErr.configMissing) ∧
    exitOf (runSync cfg join w).2 = 1 ∧
    netFetches (runSync cfg join w).1 = [] ∧
    writes (runSync cfg join w).1 = [] ∧
    (pyIn musicConfig.envVar musicConfig.missingDiag = true ∧
     pyIn redditConfig.envVar redditConfig.missingDiag = true ∧
     pyIn youtubeConfig.envVar youtubeConfig.missingDiag = true) ∧
    (musicConfig.missingDiag ≠ redditConfig.missingDiag ∧
     musicConfig.missingDiag ≠ youtubeConfig.missingDiag ∧
     redditConfig.missingDiag ≠ youtubeConfig.missingDiag) := by
  have heq : runSync cfg join w = ([Ev.mkdirTmp], Except.error RunErr.configMissing) := by
    simp [runSync, h]
  refine ⟨heq, ?_, ?_, ?_, by decide, by decide⟩
  · rw [heq]
    rfl
  · rw [heq]
    rfl
  · rw [heq]
    rfl

/-- Concrete world with the version input absent. -/
def demoEmptyWorld : World :=
  ⟨none, fun _ => [], fun _ => [], fun _ => [], fun _ => false⟩

/-- Witness for C8 on the concrete empty-environment world. -/
theorem missing_version_startup_w :
    demoEmptyWorld.envVersion = none ∧
    runSync musicConfig id demoEmptyWorld
      = ([Ev.mkdirTmp], Except.error RunErr.configMissing) := by
  exact ⟨rfl, (missing_version_startup musicConfig id demoEmptyWorld rfl).1⟩

/-- C10: the tmp directory creation is the first event of every run,
before the required-version check, so even a run failing immediately with
the missing-configuration diagnostic has performed it while writing no
artifact file. -/
theorem tmpdir_always_created (cfg : SyncConfig) (join : List Char → List Char)
    (w : World) :
    (runSync cfg join w).1.head? = some Ev.mkdirTmp ∧
    (w.envVersion = none →
       (runSync cfg join w).2 = Except.error RunErr.configMissing ∧
       writes (runSync cfg join w).1 = [] ∧
       Ev.mkdirTmp ∈ (runSync cfg join w).1) := by
  constructor
  · cases hv : w.envVersion with
    | none => simp [runSync, hv]
    | some v => simp [runSync, hv]
  · intro h
    refine ⟨?_, ?_, ?_⟩ <;> simp [runSync, h, writes]

/-- Witness for C10 on the concrete empty-environment world. -/
theorem tmpdir_always_created_w :
    (runSync musicConfig id demoEmptyWorld).1.head? = some Ev.mkdirTmp ∧
    (runSync musicConfig id demoEmptyWorld).2
      = Except.error RunErr.configMissing := by
  exact ⟨(tmpdir_always_created musicConfig id demoEmptyWorld).1,
    ((tmpdir_always_created musicConfig id demoEmptyWorld).2 rfl).1⟩

end APKSync
